import Mathlib

/-!
Shallow embedding of `LatimerJasmine_MentalHealthProject.py` (class
`HealthAnalyzer`): the cleaning pipeline `clean_data` and the five
aggregator getters, together with a small heap model for the frame
properties of `__init__`, `clean_data` and the getters.

Pandas cell values are modelled by `Value`: floats are modelled as exact
rationals, timestamps by `Date`, and `NaN`/`NaT`/`None` by `Value.na`.
A dataframe is a column-name list together with positional rows.
A raised Python exception is modelled by an `Option` result being `none`.
-/

/-- Calendar timestamp: year, month, day and an intra-day time component
(seconds); `pd.to_datetime` of an ISO `YYYY-MM-DD` string yields midnight,
`t = 0`. -/
structure Date where
  y : Nat
  m : Nat
  d : Nat
  t : Nat
deriving DecidableEq

/-- A pandas cell value: string, numeric (floats modelled as exact
rationals), timestamp, or missing (`NaN`/`NaT`/`None`). -/
inductive Value where
  | str (s : String)
  | num (q : Rat)
  | date (d : Date)
  | na
deriving DecidableEq

def Value.isNA : Value → Bool
  | .na => true
  | _ => false

def Value.isDate : Value → Bool
  | .date _ => true
  | _ => false

def toRat? : Value → Option Rat
  | .num q => some q
  | _ => none

def toDate? : Value → Option Date
  | .date d => some d
  | _ => none

/-- Accumulator pass of decimal-digit parsing. -/
def digitsGo : List Char → Nat → Option Nat
  | [], acc => some acc
  | c :: cs, acc =>
    if c.isDigit then digitsGo cs (acc * 10 + (c.toNat - 48)) else none

/-- Parse a non-empty all-digit character list as a natural number. -/
def digitsToNat? : List Char → Option Nat
  | [] => none
  | c :: cs => digitsGo (c :: cs) 0

/-- Split a character list on a separator character. -/
def splitOnChar (sep : Char) : List Char → List (List Char)
  | [] => [[]]
  | c :: cs =>
    if c = sep then [] :: splitOnChar sep cs
    else
      match splitOnChar sep cs with
      | [] => [[c]]
      | g :: gs => (c :: g) :: gs

/-- Model of the date formats `pd.to_datetime(..., errors="coerce")`
accepts, restricted to ISO `YYYY-MM-DD` date-only strings (the format
this dataset uses); any other string coerces to missing, which is the
`errors="coerce"` path. -/
def parseDateString (s : String) : Option Date :=
  match splitOnChar (Char.ofNat 45) s.data with
  | [ys, ms, ds] =>
    match digitsToNat? ys, digitsToNat? ms, digitsToNat? ds with
    | some yv, some mv, some dv =>
      if 1 ≤ mv ∧ mv ≤ 12 ∧ 1 ≤ dv ∧ dv ≤ 31 then some ⟨yv, mv, dv, 0⟩ else none
    | _, _, _ => none
  | _ => none

/-- Decimal parsing of an unsigned numeric string: digits with an
optional fractional part. -/
def parseUnsigned (cs : List Char) : Option Rat :=
  match splitOnChar (Char.ofNat 46) cs with
  | [ip] => (digitsToNat? ip).map (fun n => (n : Rat))
  | [ip, fp] =>
    match digitsToNat? ip, digitsToNat? fp with
    | some i, some f => some (mkRat (i * 10 ^ fp.length + f) (10 ^ fp.length))
    | _, _ => none
  | _ => none

/-- Model of `pd.to_numeric(..., errors="coerce")` string parsing:
optional leading minus sign, decimal digits, optional fractional part.
Anything else coerces to missing. -/
def parseNumString (s : String) : Option Rat :=
  match s.data with
  | c :: cs => if c = Char.ofNat 45 then (parseUnsigned cs).map Neg.neg else parseUnsigned (c :: cs)
  | [] => none

/-- Model of `pd.to_datetime(cell, errors="coerce")`: an already-datetime
cell is unchanged, a parsable string becomes a timestamp, anything
unparsable becomes missing (`NaT`). Numeric epoch-offset conversion is not
modelled and also degrades to missing. -/
def to_datetime : Value → Value
  | .str s =>
    match parseDateString s with
    | some dv => .date dv
    | none => .na
  | .date dv => .date dv
  | _ => .na

/-- Model of `pd.to_numeric(cell, errors="coerce")`: numbers are
unchanged, parsable strings become numbers, anything else becomes
missing. -/
def to_numeric : Value → Value
  | .str s =>
    match parseNumString s with
    | some q => .num q
    | none => .na
  | .num q => .num q
  | _ => .na

/-- A dataframe: named columns and positional rows (row entry `i` belongs
to column `cols[i]`). -/
structure Table where
  cols : List String
  rows : List (List Value)
deriving DecidableEq

/-- Cell of row `r` in the column named `c` (first occurrence when a name
repeats); missing columns and short rows read as missing. -/
def rowVal : List String → List Value → String → Value
  | [], _, _ => .na
  | _ :: _, [], _ => .na
  | c :: cs, v :: vs, n => if c = n then v else rowVal cs vs n

/-- Values of the column named `c`, one per row (`self.df[c]`). -/
def colValues (t : Table) (c : String) : List Value :=
  t.rows.map (fun r => rowVal t.cols r c)

/-- The numeric columns cast by `clean_data` (source lines 33-39). -/
def numeric_cols : List String :=
  ["Age", "Treatment_Duration_Weeks", "Num_Visits", "Satisfaction_Score", "Severity_Level"]

/-- Per-cell effect of the coercion block of `clean_data` (source lines
29-42) on the column named `c`: `Visit_Date` is datetime-cast, the five
numeric columns are numeric-cast, every other column is untouched. The
source assigns whole columns guarded by `if col in self.df.columns`; with
per-position application over the actual column list the guard is
automatic, since a name not in `cols` labels no position. -/
def cellCoerce (c : String) (v : Value) : Value :=
  if c = "Visit_Date" then to_datetime v
  else if c ∈ numeric_cols then to_numeric v
  else v

/-- Coercion block of `clean_data` applied to one row, positionally. -/
def coerceRow : List String → List Value → List Value
  | _, [] => []
  | [], vs => vs
  | c :: cs, v :: vs => cellCoerce c v :: coerceRow cs vs

/-- Coercion block of `clean_data` (source lines 29-42) on all rows. -/
def coerceStage (cols : List String) (rows : List (List Value)) : List (List Value) :=
  rows.map (coerceRow cols)

/-- Age test of source line 46, `(df["Age"] >= 0) & (df["Age"] <= 100)`;
comparisons against a missing value are false, so miscoerced ages drop. -/
def ageOK (v : Value) : Bool :=
  match v with
  | .num q => decide (0 ≤ q) && decide (q ≤ 100)
  | _ => false

/-- Age filter of source lines 45-46. -/
def ageStage (cols : List String) (rows : List (List Value)) : List (List Value) :=
  if "Age" ∈ cols then rows.filter (fun r => ageOK (rowVal cols r "Age")) else rows

/-- One iteration of the `dropna(subset=[col])` loop of source lines
49-51. -/
def dropNaStage (cols : List String) (c : String) (rows : List (List Value)) :
    List (List Value) :=
  if c ∈ cols then rows.filter (fun r => !(rowVal cols r c).isNA) else rows

/-- Deduplication key of source line 53. -/
def rowKey (cols : List String) (r : List Value) : Value × Value :=
  (rowVal cols r "Patient_ID", rowVal cols r "Visit_Date")

/-- Body of `drop_duplicates(subset=["Patient_ID", "Visit_Date"])`: keep
the first row bearing each key, walking in original order (pandas treats
`NaN` keys as equal to each other, as does `Value.na` here). -/
def dedupRowsGo (cols : List String) (seen : List (Value × Value)) :
    List (List Value) → List (List Value)
  | [] => []
  | r :: rs =>
    if rowKey cols r ∈ seen then dedupRowsGo cols seen rs
    else r :: dedupRowsGo cols (rowKey cols r :: seen) rs

/-- `drop_duplicates` of source line 53 (keep="first" is the default). -/
def dedupRows (cols : List String) (rows : List (List Value)) : List (List Value) :=
  dedupRowsGo cols [] rows

/-- Rows after the coercion, age and missing-critical-field steps of
`clean_data` — everything before the deduplication of source line 53; the
`for col in ["Diagnosis", "Visit_Date"]` loop is unrolled. -/
def preDedupRows (cols : List String) (rows : List (List Value)) : List (List Value) :=
  dropNaStage cols "Visit_Date" (dropNaStage cols "Diagnosis" (ageStage cols (coerceStage cols rows)))

/-- `HealthAnalyzer.clean_data` as a table transformer (source lines
21-55). `none` models the `KeyError` that `drop_duplicates` raises when a
subset column is absent from the frame; every step before it preserves
the column list, so the presence test reads the input columns. -/
def clean_data (t : Table) : Option Table :=
  if "Patient_ID" ∈ t.cols ∧ "Visit_Date" ∈ t.cols then
    some ⟨t.cols, dedupRows t.cols (preDedupRows t.cols t.rows)⟩
  else none

/-!
Aggregator getters: each reads `self.df`, modelled as a plain table
argument. A Python `return None` (the "no data" sentinel for an absent
column) is the `none` of the outer `Option`; `get_monthly_visits`, whose
`.dt` accessor can also raise, returns a second `Option` layer whose
`none` marks the raise.

Rational arithmetic: `Rat.add` and friends are kernel-irreducible, so
the mean uses `mkRat`-based operations `qAdd`/`qSum`/`qDiv`, proved equal
to `+`, `List.sum` and `/` below.
-/

def qAdd (a b : Rat) : Rat := mkRat (a.num * b.den + b.num * a.den) (a.den * b.den)

def qSum (l : List Rat) : Rat := l.foldr qAdd 0

def qDiv (a : Rat) (n : Nat) : Rat := mkRat a.num (a.den * n)

/-- Arithmetic mean with pandas `skipna` semantics: non-numeric entries
(missing values) are skipped; a group with no numeric entry has mean
`NaN`. -/
def meanSkipNA (vs : List Value) : Value :=
  match vs.filterMap toRat? with
  | [] => .na
  | q :: qs => .num (qDiv (qSum (q :: qs)) (q :: qs).length)

/-- Descending order on counted pairs, the order of
`value_counts()` / `sort_values(ascending=False)`. -/
def countDesc (a b : Value × Nat) : Prop := b.2 ≤ a.2

instance : DecidableRel countDesc := fun a b => Nat.decLe b.2 a.2

instance : IsTotal (Value × Nat) countDesc := ⟨fun a b => Nat.le_total b.2 a.2⟩

instance : IsTrans (Value × Nat) countDesc := ⟨fun _ _ _ hab hbc => Nat.le_trans hbc hab⟩

/-- `HealthAnalyzer.get_diagnosis_counts` (source lines 58-61):
`value_counts` counts the non-missing diagnosis labels (distinct labels
in first-appearance order here; pandas leaves the tie order between equal
counts unspecified) and `sort_values(ascending=False)` orders the pairs
by descending count. -/
def get_diagnosis_counts (t : Table) : Option (List (Value × Nat)) :=
  if "Diagnosis" ∈ t.cols then
    let vs := (colValues t "Diagnosis").filter (fun v => !v.isNA)
    some (List.insertionSort countDesc (vs.dedup.map (fun k => (k, vs.count k))))
  else none

/-- Month ordinal of a timestamp, the model of `Period("M")`. -/
def periodM (d : Date) : Nat := d.y * 12 + d.m

/-- First day of the timestamp's calendar month:
`.dt.to_period("M").dt.to_timestamp()` (source line 69). -/
def monthStart (d : Date) : Date := ⟨d.y, d.m, 1, 0⟩

/-- Ascending order on month buckets, the key order of `groupby`. -/
def monthAsc (a b : Date × Nat) : Prop := periodM a.1 ≤ periodM b.1

instance : DecidableRel monthAsc := fun a b => Nat.decLe (periodM a.1) (periodM b.1)

instance : IsTotal (Date × Nat) monthAsc := ⟨fun x y => Nat.le_total (periodM x.1) (periodM y.1)⟩

instance : IsTrans (Date × Nat) monthAsc := ⟨fun _ _ _ hab hbc => Nat.le_trans hab hbc⟩

/-- `HealthAnalyzer.get_monthly_visits` (source lines 64-70). Outer
`none`: the `Diagnosis`-style sentinel `return None` for a missing
`Visit_Date` column is `some none`; the plain `none` models the
`AttributeError` the `.dt` accessor raises when the (dropna-filtered)
column is not datetime-typed, modelled value-wise as some surviving entry
not being a timestamp. Otherwise: rows with missing `Visit_Date` are
dropped, each timestamp is bucketed by its month start, and
`groupby("Month").size()` lists the buckets in ascending month order.
First, the month-start buckets of the non-missing `Visit_Date`
timestamps, one per surviving row: the `Month` column contents of the
temp frame. -/
def monthList (t : Table) : List Date :=
  (((colValues t "Visit_Date").filter (fun v => !v.isNA)).filterMap toDate?).map monthStart

def get_monthly_visits (t : Table) : Option (Option (List (Date × Nat))) :=
  if "Visit_Date" ∈ t.cols then
    if ((colValues t "Visit_Date").filter (fun v => !v.isNA)).all Value.isDate then
      some (some (List.insertionSort monthAsc
        ((monthList t).dedup.map (fun k => (k, (monthList t).count k)))))
    else none
  else some none

/-- `HealthAnalyzer.get_age_series` (source lines 73-76):
`self.df["Age"].dropna()`. -/
def get_age_series (t : Table) : Option (List Value) :=
  if "Age" ∈ t.cols then some ((colValues t "Age").filter (fun v => !v.isNA)) else none

/-- `HealthAnalyzer.get_gender_counts` (source lines 78-81):
`value_counts`, descending by count. -/
def get_gender_counts (t : Table) : Option (List (Value × Nat)) :=
  if "Gender" ∈ t.cols then
    let vs := (colValues t "Gender").filter (fun v => !v.isNA)
    some (List.insertionSort countDesc (vs.dedup.map (fun k => (k, vs.count k))))
  else none

/-- Treatment-duration cells of the rows whose `Diagnosis` cell equals
`d` — the group that `groupby("Diagnosis")` forms for key `d`. -/
def groupDurations (t : Table) (d : Value) : List Value :=
  (t.rows.filter (fun r => decide (rowVal t.cols r "Diagnosis" = d))).map
    (fun r => rowVal t.cols r "Treatment_Duration_Weeks")

/-- Descending order on group means, with pandas `sort_values` placing
`NaN` last (`na_position="last"`). -/
def meanGEb (x y : Value) : Bool :=
  match toRat? x, toRat? y with
  | _, none => true
  | none, some _ => false
  | some a, some b => decide (b ≤ a)

def meanDesc (a b : Value × Value) : Prop := meanGEb a.2 b.2 = true

instance : DecidableRel meanDesc := fun a b => instDecidableEqBool (meanGEb a.2 b.2) true

instance : IsTotal (Value × Value) meanDesc :=
  ⟨fun a b => by
    unfold meanDesc meanGEb
    rcases hx : toRat? a.2 with _ | qa <;> rcases hy : toRat? b.2 with _ | qb <;> simp
    exact le_total qb qa⟩

instance : IsTrans (Value × Value) meanDesc :=
  ⟨fun a b c hab hbc => by
    unfold meanDesc meanGEb at hab hbc ⊢
    rcases hx : toRat? a.2 with _ | qa <;> rcases hy : toRat? b.2 with _ | qb <;>
      rcases hz : toRat? c.2 with _ | qc <;> simp_all
    exact le_trans hbc hab⟩

/-- `HealthAnalyzer.get_duration_by_diagnosis` (source lines 84-92):
group the table by non-missing `Diagnosis` label (`groupby` drops rows
whose key is missing), take each group's `Treatment_Duration_Weeks` mean
with missing entries skipped, and order the pairs by descending mean,
missing means last. -/
def get_duration_by_diagnosis (t : Table) : Option (List (Value × Value)) :=
  if "Diagnosis" ∈ t.cols ∧ "Treatment_Duration_Weeks" ∈ t.cols then
    let keys := ((colValues t "Diagnosis").filter (fun v => !v.isNA)).dedup
    some (List.insertionSort meanDesc (keys.map (fun d => (d, meanSkipNA (groupDurations t d)))))
  else none

/-- `HealthAnalyzer.get_satisfaction_series` (source lines 95-98):
`self.df["Satisfaction_Score"].dropna()`. -/
def get_satisfaction_series (t : Table) : Option (List Value) :=
  if "Satisfaction_Score" ∈ t.cols then
    some ((colValues t "Satisfaction_Score").filter (fun v => !v.isNA))
  else none

/-!
Heap model for the frame properties: Python objects live in a heap of
tables addressed by `Nat`, and `HealthAnalyzer` holds the addresses of
`self.raw_df` and `self.df`. `df.copy()` in `__init__` allocates a fresh
cell; in-place column writes (`self.df[col] = ...`) write through the
`df` address; mask / `dropna` / `drop_duplicates` results are fresh
objects to which `self.df` is rebound.
-/

abbrev Heap := List Table

def emptyTable : Table := ⟨[], []⟩

def readH (h : Heap) (p : Nat) : Table := h.getD p emptyTable

def writeH (h : Heap) (p : Nat) (t : Table) : Heap := h.set p t

def allocH (h : Heap) (t : Table) : Heap × Nat := (h ++ [t], h.length)

structure HealthAnalyzer where
  raw_df : Nat
  df : Nat
deriving DecidableEq

/-- `HealthAnalyzer.__init__` (source lines 16-19): keep the caller's
object as `self.raw_df` and a freshly allocated copy as the working
`self.df`. -/
def hInit (h : Heap) (p : Nat) : Heap × HealthAnalyzer :=
  let hq := allocH h (readH h p)
  (hq.1, ⟨p, hq.2⟩)

/-- `HealthAnalyzer.clean_data` on the heap. Source lines 29-42 write the
coerced columns in place through `self.df`; the mask of line 46, the
`dropna` calls of lines 49-51 and the `drop_duplicates` of line 53 each
produce a fresh frame to which `self.df` is rebound. `none` again models
the `KeyError` of line 53, raised after the earlier rebindings took
effect.
First, one conditional rebinding statement of `clean_data` on the heap: when
column `c` is present in the frame at address `q`, the filter result is a
fresh object to which `self.df` is rebound; otherwise the statement does
not execute. -/
def condRebind (h : Heap) (q : Nat) (f : Table → Table) (c : String) : Heap × Nat :=
  if c ∈ (readH h q).cols then allocH h (f (readH h q)) else (h, q)

def hCleanData (h : Heap) (a : HealthAnalyzer) : Heap × HealthAnalyzer × Option Nat :=
  let h1 := writeH h a.df ⟨(readH h a.df).cols, coerceStage (readH h a.df).cols (readH h a.df).rows⟩
  let s2 := condRebind h1 a.df (fun t => ⟨t.cols, ageStage t.cols t.rows⟩) "Age"
  let s3 := condRebind s2.1 s2.2 (fun t => ⟨t.cols, dropNaStage t.cols "Diagnosis" t.rows⟩) "Diagnosis"
  let s4 := condRebind s3.1 s3.2 (fun t => ⟨t.cols, dropNaStage t.cols "Visit_Date" t.rows⟩) "Visit_Date"
  let t4 := readH s4.1 s4.2
  if "Patient_ID" ∈ t4.cols ∧ "Visit_Date" ∈ t4.cols then
    let s5 := allocH s4.1 ⟨t4.cols, dedupRows t4.cols t4.rows⟩
    (s5.1, ⟨a.raw_df, s5.2⟩, some s5.2)
  else (s4.1, ⟨a.raw_df, s4.2⟩, none)

/-- `temp["Month"] = temp["Visit_Date"].dt.to_period("M").dt.to_timestamp()`
(source line 69): append a `Month` column holding each row's month-start
timestamp. -/
def addMonthCol (t : Table) : Table :=
  ⟨t.cols ++ ["Month"],
   t.rows.map (fun r =>
     r ++ [match toDate? (rowVal t.cols r "Visit_Date") with
           | some d => Value.date (monthStart d)
           | none => Value.na])⟩

/-- `get_monthly_visits` on the heap: `temp = self.df.dropna(...).copy()`
(source line 68) allocates a private copy, and the `Month` column write
of line 69 lands in that copy only; on the `AttributeError` path the copy
was allocated but the `Month` write did not happen. -/
def hGetMonthlyVisits (h : Heap) (a : HealthAnalyzer) :
    Heap × Option (Option (List (Date × Nat))) :=
  let t := readH h a.df
  if "Visit_Date" ∈ t.cols then
    let temp : Table := ⟨t.cols, t.rows.filter (fun r => !(rowVal t.cols r "Visit_Date").isNA)⟩
    let s1 := allocH h temp
    let vs := (colValues t "Visit_Date").filter (fun v => !v.isNA)
    if vs.all Value.isDate then
      (writeH s1.1 s1.2 (addMonthCol temp), get_monthly_visits t)
    else (s1.1, none)
  else (h, some none)

/-- Getters without a frame copy simply read `self.df` (source lines
58-61, 73-76, 78-81, 84-92, 95-98) and leave the heap unchanged. -/
def hGetDiagnosisCounts (h : Heap) (a : HealthAnalyzer) : Heap × Option (List (Value × Nat)) :=
  (h, get_diagnosis_counts (readH h a.df))

def hGetAgeSeries (h : Heap) (a : HealthAnalyzer) : Heap × Option (List Value) :=
  (h, get_age_series (readH h a.df))

def hGetGenderCounts (h : Heap) (a : HealthAnalyzer) : Heap × Option (List (Value × Nat)) :=
  (h, get_gender_counts (readH h a.df))

def hGetDurationByDiagnosis (h : Heap) (a : HealthAnalyzer) :
    Heap × Option (List (Value × Value)) :=
  (h, get_duration_by_diagnosis (readH h a.df))

def hGetSatisfactionSeries (h : Heap) (a : HealthAnalyzer) : Heap × Option (List Value) :=
  (h, get_satisfaction_series (readH h a.df))

/-- Frame invariant used to walk `hCleanData`: cell `p` is a valid
address and still holds what it held in the starting heap. -/
def PFrame (p : Nat) (h0 h1 : Heap) : Prop :=
  p < h1.length ∧ readH h1 p = readH h0 p

example : parseDateString "2024-01-05" = some ⟨2024, 1, 5, 0⟩ := by decide
example : parseNumString "12.5" = some (mkRat 25 2) := by decide
example : clean_data ⟨["Age"], []⟩ = none := by decide
example :
    clean_data ⟨["Patient_ID", "Visit_Date", "Age"],
      [[Value.num 1, Value.str "2024-01-05", Value.str "30"],
       [Value.num 2, Value.str "2024-01-06", Value.str "150"]]⟩ =
    some ⟨["Patient_ID", "Visit_Date", "Age"],
      [[Value.num 1, Value.date ⟨2024, 1, 5, 0⟩, Value.num 30]]⟩ := by decide

/-!
Library of small lemmas about the pipeline stages.
-/

theorem qAdd_eq (a b : Rat) : qAdd a b = a + b := (Rat.add_def' a b).symm

theorem qSum_eq (l : List Rat) : qSum l = l.sum := by
  induction l with
  | nil => rfl
  | cons a l ih => simp [qSum, List.foldr, qAdd_eq, List.sum_cons, ← ih]

theorem qDiv_eq (a : Rat) (n : Nat) : qDiv a n = a / n := by
  rw [qDiv, Rat.mkRat_eq_div, Nat.cast_mul, ← div_div, Rat.num_div_den]

theorem map_fix_eq_self {α : Type} (f : α → α) :
    ∀ l : List α, (∀ x ∈ l, f x = x) → l.map f = l := by
  intro l h
  induction l with
  | nil => rfl
  | cons a l ih =>
    simp only [List.map_cons, h a (List.mem_cons_self a l)]
    rw [ih (fun x hx => h x (List.mem_cons_of_mem a hx))]

theorem dedupRowsGo_subset (cols : List String) :
    ∀ (seen : List (Value × Value)) (l : List (List Value)) (r : List Value),
      r ∈ dedupRowsGo cols seen l → r ∈ l := by
  intro seen l
  induction l generalizing seen with
  | nil => intro r hr; cases hr
  | cons a l ih =>
    intro r hr
    unfold dedupRowsGo at hr
    split at hr
    · exact List.mem_cons_of_mem a (ih seen r hr)
    · rcases List.mem_cons.mp hr with h | h
      · exact h ▸ List.mem_cons_self a l
      · exact List.mem_cons_of_mem a (ih _ r h)

theorem dedupRowsGo_not_seen (cols : List String) :
    ∀ (seen : List (Value × Value)) (l : List (List Value)) (r : List Value),
      r ∈ dedupRowsGo cols seen l → rowKey cols r ∉ seen := by
  intro seen l
  induction l generalizing seen with
  | nil => intro r hr; cases hr
  | cons a l ih =>
    intro r hr
    unfold dedupRowsGo at hr
    split at hr
    · exact ih seen r hr
    · rcases List.mem_cons.mp hr with h | h
      · subst h; assumption
      · intro hmem
        exact ih _ r h (List.mem_cons_of_mem _ hmem)

theorem dedupRowsGo_find (cols : List String) :
    ∀ (seen : List (Value × Value)) (l : List (List Value)) (r : List Value),
      r ∈ dedupRowsGo cols seen l →
      l.find? (fun x => decide (rowKey cols x = rowKey cols r)) = some r := by
  intro seen l
  induction l generalizing seen with
  | nil => intro r hr; cases hr
  | cons a l ih =>
    intro r hr
    unfold dedupRowsGo at hr
    split at hr
    · rename_i hseen
      have hne : rowKey cols a ≠ rowKey cols r := by
        intro he
        exact dedupRowsGo_not_seen cols seen l r hr (he ▸ hseen)
      rw [List.find?_cons_of_neg _ (by simpa using hne)]
      exact ih seen r hr
    · rcases List.mem_cons.mp hr with h | h
      · subst h
        exact List.find?_cons_of_pos _ (by simp)
      · have hne : rowKey cols a ≠ rowKey cols r := by
          intro he
          exact dedupRowsGo_not_seen cols _ l r h (he ▸ List.mem_cons_self _ _)
        rw [List.find?_cons_of_neg _ (by simpa using hne)]
        exact ih _ r h

theorem dedupRowsGo_pairwise (cols : List String) :
    ∀ (seen : List (Value × Value)) (l : List (List Value)),
      (dedupRowsGo cols seen l).Pairwise (fun a b => rowKey cols a ≠ rowKey cols b) := by
  intro seen l
  induction l generalizing seen with
  | nil => exact List.Pairwise.nil
  | cons a l ih =>
    unfold dedupRowsGo
    split
    · exact ih seen
    · refine List.Pairwise.cons ?_ (ih _)
      intro b hb he
      exact dedupRowsGo_not_seen cols _ l b hb (he ▸ List.mem_cons_self _ _)

theorem dedupRowsGo_cons (cols : List String) (seen : List (Value × Value))
    (a : List Value) (l : List (List Value)) :
    dedupRowsGo cols seen (a :: l) =
      if rowKey cols a ∈ seen then dedupRowsGo cols seen l
      else a :: dedupRowsGo cols (rowKey cols a :: seen) l := rfl

theorem dedupRowsGo_idem (cols : List String) :
    ∀ (seen : List (Value × Value)) (l : List (List Value)),
      dedupRowsGo cols seen (dedupRowsGo cols seen l) = dedupRowsGo cols seen l := by
  intro seen l
  induction l generalizing seen with
  | nil => rfl
  | cons a l ih =>
    by_cases h : rowKey cols a ∈ seen
    · simp only [dedupRowsGo_cons, if_pos h]
      exact ih seen
    · simp only [dedupRowsGo_cons, if_neg h, ih]

theorem dedupRowsGo_length (cols : List String) :
    ∀ (seen : List (Value × Value)) (l : List (List Value)),
      (dedupRowsGo cols seen l).length ≤ l.length := by
  intro seen l
  induction l generalizing seen with
  | nil => exact Nat.le_refl 0
  | cons a l ih =>
    unfold dedupRowsGo
    split
    · exact Nat.le_succ_of_le (ih seen)
    · simpa using Nat.succ_le_succ (ih _)

theorem countP_key_eq_one (cols : List String) :
    ∀ (l : List (List Value)) (r : List Value),
      l.Pairwise (fun a b => rowKey cols a ≠ rowKey cols b) → r ∈ l →
      l.countP (fun x => decide (rowKey cols x = rowKey cols r)) = 1 := by
  intro l
  induction l with
  | nil => intro r _ hr; cases hr
  | cons a l ih =>
    intro r hp hr
    have ha := (List.pairwise_cons.mp hp).1
    have hl := (List.pairwise_cons.mp hp).2
    rw [List.countP_cons]
    rcases List.mem_cons.mp hr with h | h
    · subst h
      have hz : l.countP (fun x => decide (rowKey cols x = rowKey cols r)) = 0 := by
        rw [List.countP_eq_zero]
        intro x hx
        simp only [decide_eq_true_eq]
        exact fun he => (ha x hx) he.symm
      simp [hz]
    · have hne : rowKey cols a ≠ rowKey cols r := ha r h
      simp [ih r hl h, hne]

theorem to_datetime_idem (v : Value) : to_datetime (to_datetime v) = to_datetime v := by
  cases v with
  | str s => cases h : parseDateString s <;> simp [to_datetime, h]
  | num q => rfl
  | date d => rfl
  | na => rfl

theorem to_numeric_idem (v : Value) : to_numeric (to_numeric v) = to_numeric v := by
  cases v with
  | str s => cases h : parseNumString s <;> simp [to_numeric, h]
  | num q => rfl
  | date d => rfl
  | na => rfl

theorem cellCoerce_idem (c : String) (v : Value) :
    cellCoerce c (cellCoerce c v) = cellCoerce c v := by
  unfold cellCoerce
  by_cases h1 : c = "Visit_Date"
  · simp [h1, to_datetime_idem]
  · by_cases h2 : c ∈ numeric_cols <;> simp [h1, h2, to_numeric_idem]

theorem coerceRow_idem (cols : List String) (r : List Value) :
    coerceRow cols (coerceRow cols r) = coerceRow cols r := by
  induction cols generalizing r with
  | nil => cases r <;> rfl
  | cons c cs ih =>
    cases r with
    | nil => rfl
    | cons v vs => simp [coerceRow, cellCoerce_idem, ih]

theorem mem_ageStage {cols : List String} {rows : List (List Value)} {r : List Value}
    (h : r ∈ ageStage cols rows) : r ∈ rows := by
  unfold ageStage at h
  split at h
  · exact List.mem_of_mem_filter h
  · exact h

theorem mem_dropNaStage {cols : List String} {c : String} {rows : List (List Value)}
    {r : List Value} (h : r ∈ dropNaStage cols c rows) : r ∈ rows := by
  unfold dropNaStage at h
  split at h
  · exact List.mem_of_mem_filter h
  · exact h

theorem mem_preDedup {cols : List String} {rows : List (List Value)} {r : List Value}
    (h : r ∈ preDedupRows cols rows) : ∃ r0 ∈ rows, r = coerceRow cols r0 := by
  have h1 : r ∈ coerceStage cols rows :=
    mem_ageStage (mem_dropNaStage (mem_dropNaStage h))
  rcases List.mem_map.mp h1 with ⟨r0, hr0, he⟩
  exact ⟨r0, hr0, he.symm⟩

theorem preDedup_fix {cols : List String} {rows : List (List Value)} {r : List Value}
    (h : r ∈ preDedupRows cols rows) : coerceRow cols r = r := by
  rcases mem_preDedup h with ⟨r0, _, he⟩
  rw [he, coerceRow_idem]

theorem preDedup_age {cols : List String} {rows : List (List Value)} {r : List Value}
    (hc : "Age" ∈ cols) (h : r ∈ preDedupRows cols rows) :
    ageOK (rowVal cols r "Age") = true := by
  have h1 : r ∈ ageStage cols (coerceStage cols rows) :=
    mem_dropNaStage (mem_dropNaStage h)
  unfold ageStage at h1
  rw [if_pos hc] at h1
  exact (List.mem_filter.mp h1).2

theorem preDedup_diag {cols : List String} {rows : List (List Value)} {r : List Value}
    (hc : "Diagnosis" ∈ cols) (h : r ∈ preDedupRows cols rows) :
    (rowVal cols r "Diagnosis").isNA = false := by
  have h1 : r ∈ dropNaStage cols "Diagnosis" (ageStage cols (coerceStage cols rows)) :=
    mem_dropNaStage h
  unfold dropNaStage at h1
  rw [if_pos hc] at h1
  simpa using (List.mem_filter.mp h1).2

theorem preDedup_vd {cols : List String} {rows : List (List Value)} {r : List Value}
    (hc : "Visit_Date" ∈ cols) (h : r ∈ preDedupRows cols rows) :
    (rowVal cols r "Visit_Date").isNA = false := by
  unfold preDedupRows at h
  unfold dropNaStage at h
  rw [if_pos hc] at h
  simpa using (List.mem_filter.mp h).2

theorem ageStage_eq_self {cols : List String} {rows : List (List Value)}
    (h : ∀ r ∈ rows, "Age" ∈ cols → ageOK (rowVal cols r "Age") = true) :
    ageStage cols rows = rows := by
  unfold ageStage
  split
  · exact List.filter_eq_self.mpr (fun r hr => h r hr (by assumption))
  · rfl

theorem dropNaStage_eq_self {cols : List String} {c : String} {rows : List (List Value)}
    (h : ∀ r ∈ rows, c ∈ cols → (rowVal cols r c).isNA = false) :
    dropNaStage cols c rows = rows := by
  unfold dropNaStage
  split
  · exact List.filter_eq_self.mpr (fun r hr => by simp [h r hr (by assumption)])
  · rfl

theorem ageStage_length (cols : List String) (rows : List (List Value)) :
    (ageStage cols rows).length ≤ rows.length := by
  unfold ageStage
  split
  · exact List.length_filter_le _ _
  · exact Nat.le_refl _

theorem dropNaStage_length (cols : List String) (c : String) (rows : List (List Value)) :
    (dropNaStage cols c rows).length ≤ rows.length := by
  unfold dropNaStage
  split
  · exact List.length_filter_le _ _
  · exact Nat.le_refl _

theorem ageOK_spec {v : Value} (h : ageOK v = true) :
    ∃ q : Rat, v = .num q ∧ 0 ≤ q ∧ q ≤ 100 := by
  cases v with
  | num q =>
    have h2 : 0 ≤ q ∧ q ≤ 100 := by simpa [ageOK] using h
    exact ⟨q, rfl, h2.1, h2.2⟩
  | str s => simp [ageOK] at h
  | date d => simp [ageOK] at h
  | na => simp [ageOK] at h

theorem preDedup_length (cols : List String) (rows : List (List Value)) :
    (preDedupRows cols rows).length ≤ rows.length := by
  unfold preDedupRows
  calc (dropNaStage cols "Visit_Date"
          (dropNaStage cols "Diagnosis" (ageStage cols (coerceStage cols rows)))).length
      ≤ (dropNaStage cols "Diagnosis" (ageStage cols (coerceStage cols rows))).length :=
        dropNaStage_length _ _ _
    _ ≤ (ageStage cols (coerceStage cols rows)).length := dropNaStage_length _ _ _
    _ ≤ (coerceStage cols rows).length := ageStage_length _ _
    _ = rows.length := List.length_map _ _

/-- C1, counterexample: the claim asserts that `clean_data` completes for
every table, including one missing the `Patient_ID` column; but on such a
table the unconditional `drop_duplicates(subset=["Patient_ID",
"Visit_Date"])` of source line 53 raises `KeyError` (modelled as `none`),
so no table is returned. -/
theorem c1_counterexample : clean_data ⟨["Age"], [[Value.num 30]]⟩ = none := by decide

/-- C1 (amended): for every input table that contains both the
`Patient_ID` and `Visit_Date` columns, `clean_data` completes and returns
a table; all other absent columns are tolerated at every step and
malformed values degrade to missing. When `Patient_ID` or `Visit_Date` is
absent, the deduplication step raises `KeyError`. -/
theorem c1_clean_data_total (t : Table) (hp : "Patient_ID" ∈ t.cols)
    (hv : "Visit_Date" ∈ t.cols) : (clean_data t).isSome := by
  simp [clean_data, hp, hv]

theorem c1_clean_data_total_witness :
    "Patient_ID" ∈ (Table.mk ["Patient_ID", "Visit_Date"]
        [[Value.num 1, Value.str "bad date"], [Value.str "x", Value.na]]).cols ∧
    "Visit_Date" ∈ (Table.mk ["Patient_ID", "Visit_Date"]
        [[Value.num 1, Value.str "bad date"], [Value.str "x", Value.na]]).cols ∧
    (clean_data (Table.mk ["Patient_ID", "Visit_Date"]
        [[Value.num 1, Value.str "bad date"], [Value.str "x", Value.na]])).isSome :=
  ⟨by decide, by decide,
    c1_clean_data_total _ (by decide) (by decide)⟩

/-- C3: on every table where cleaning is defined (returns a table rather
than raising), cleaning is idempotent — running `clean_data` on its own
output returns that output unchanged. -/
theorem c3_clean_idempotent (t u : Table) (h : clean_data t = some u) :
    clean_data u = some u := by
  unfold clean_data at h
  split at h
  case isTrue hc =>
    injection h with h
    subst h
    have hsub : ∀ r ∈ dedupRows t.cols (preDedupRows t.cols t.rows),
        r ∈ preDedupRows t.cols t.rows :=
      fun r hr => dedupRowsGo_subset t.cols [] _ r hr
    have hfix : coerceStage t.cols (dedupRows t.cols (preDedupRows t.cols t.rows)) =
        dedupRows t.cols (preDedupRows t.cols t.rows) :=
      map_fix_eq_self _ _ (fun r hr => preDedup_fix (hsub r hr))
    have hage : ageStage t.cols (dedupRows t.cols (preDedupRows t.cols t.rows)) =
        dedupRows t.cols (preDedupRows t.cols t.rows) :=
      ageStage_eq_self (fun r hr hc2 => preDedup_age hc2 (hsub r hr))
    have hdiag : dropNaStage t.cols "Diagnosis"
          (dedupRows t.cols (preDedupRows t.cols t.rows)) =
        dedupRows t.cols (preDedupRows t.cols t.rows) :=
      dropNaStage_eq_self (fun r hr hc2 => preDedup_diag hc2 (hsub r hr))
    have hvd : dropNaStage t.cols "Visit_Date"
          (dedupRows t.cols (preDedupRows t.cols t.rows)) =
        dedupRows t.cols (preDedupRows t.cols t.rows) :=
      dropNaStage_eq_self (fun r hr hc2 => preDedup_vd hc2 (hsub r hr))
    have hdefn : ∀ rows, preDedupRows t.cols rows =
        dropNaStage t.cols "Visit_Date" (dropNaStage t.cols "Diagnosis"
          (ageStage t.cols (coerceStage t.cols rows))) := fun _ => rfl
    have hpre : preDedupRows t.cols (dedupRows t.cols (preDedupRows t.cols t.rows)) =
        dedupRows t.cols (preDedupRows t.cols t.rows) := by
      rw [hdefn, hfix, hage, hdiag, hvd]
    unfold clean_data
    rw [if_pos hc]
    rw [hpre]
    unfold dedupRows
    rw [dedupRowsGo_idem]
  case isFalse => cases h

theorem c3_clean_idempotent_witness :
    clean_data (Table.mk ["Patient_ID", "Visit_Date", "Age"]
        [[Value.num 1, Value.str "2024-01-05", Value.str "30"],
         [Value.num 1, Value.str "2024-01-05", Value.str "40"],
         [Value.num 2, Value.str "2024-01-06", Value.str "150"]]) =
      some (Table.mk ["Patient_ID", "Visit_Date", "Age"]
        [[Value.num 1, Value.date ⟨2024, 1, 5, 0⟩, Value.num 30]]) ∧
    clean_data (Table.mk ["Patient_ID", "Visit_Date", "Age"]
        [[Value.num 1, Value.date ⟨2024, 1, 5, 0⟩, Value.num 30]]) =
      some (Table.mk ["Patient_ID", "Visit_Date", "Age"]
        [[Value.num 1, Value.date ⟨2024, 1, 5, 0⟩, Value.num 30]]) :=
  ⟨by decide,
    c3_clean_idempotent
      (Table.mk ["Patient_ID", "Visit_Date", "Age"]
        [[Value.num 1, Value.str "2024-01-05", Value.str "30"],
         [Value.num 1, Value.str "2024-01-05", Value.str "40"],
         [Value.num 2, Value.str "2024-01-06", Value.str "150"]])
      (Table.mk ["Patient_ID", "Visit_Date", "Age"]
        [[Value.num 1, Value.date ⟨2024, 1, 5, 0⟩, Value.num 30]])
      (by decide)⟩

/-- C4: every (`Patient_ID`, `Visit_Date`) key occurring in the output of
`clean_data` occurs in exactly one output row, and that row is the first
row — in original order, among the rows that survived the age and
missing-field filters (`preDedupRows`) — bearing that key. -/
theorem c4_dedup_unique_first (t u : Table) (h : clean_data t = some u) :
    ∀ r ∈ u.rows,
      u.rows.countP (fun x => decide (rowKey t.cols x = rowKey t.cols r)) = 1 ∧
      (preDedupRows t.cols t.rows).find?
        (fun x => decide (rowKey t.cols x = rowKey t.cols r)) = some r := by
  unfold clean_data at h
  split at h
  · injection h with h
    subst h
    intro r hr
    exact ⟨countP_key_eq_one t.cols _ r (dedupRowsGo_pairwise t.cols [] _) hr,
      dedupRowsGo_find t.cols [] _ r hr⟩
  · cases h

theorem c4_dedup_unique_first_witness :
    clean_data (Table.mk ["Patient_ID", "Visit_Date", "Diagnosis"]
        [[Value.num 1, Value.str "2024-01-05", Value.str "Anxiety"],
         [Value.num 1, Value.str "2024-01-05", Value.str "Depression"]]) =
      some (Table.mk ["Patient_ID", "Visit_Date", "Diagnosis"]
        [[Value.num 1, Value.date ⟨2024, 1, 5, 0⟩, Value.str "Anxiety"]]) ∧
    ((Table.mk ["Patient_ID", "Visit_Date", "Diagnosis"]
        [[Value.num 1, Value.date ⟨2024, 1, 5, 0⟩, Value.str "Anxiety"]]).rows.countP
      (fun x => decide (rowKey ["Patient_ID", "Visit_Date", "Diagnosis"] x =
        rowKey ["Patient_ID", "Visit_Date", "Diagnosis"]
          [Value.num 1, Value.date ⟨2024, 1, 5, 0⟩, Value.str "Anxiety"])) = 1 ∧
     (preDedupRows ["Patient_ID", "Visit_Date", "Diagnosis"]
        [[Value.num 1, Value.str "2024-01-05", Value.str "Anxiety"],
         [Value.num 1, Value.str "2024-01-05", Value.str "Depression"]]).find?
      (fun x => decide (rowKey ["Patient_ID", "Visit_Date", "Diagnosis"] x =
        rowKey ["Patient_ID", "Visit_Date", "Diagnosis"]
          [Value.num 1, Value.date ⟨2024, 1, 5, 0⟩, Value.str "Anxiety"])) =
      some [Value.num 1, Value.date ⟨2024, 1, 5, 0⟩, Value.str "Anxiety"]) :=
  ⟨by decide,
    c4_dedup_unique_first
      (Table.mk ["Patient_ID", "Visit_Date", "Diagnosis"]
        [[Value.num 1, Value.str "2024-01-05", Value.str "Anxiety"],
         [Value.num 1, Value.str "2024-01-05", Value.str "Depression"]])
      (Table.mk ["Patient_ID", "Visit_Date", "Diagnosis"]
        [[Value.num 1, Value.date ⟨2024, 1, 5, 0⟩, Value.str "Anxiety"]])
      (by decide)
      [Value.num 1, Value.date ⟨2024, 1, 5, 0⟩, Value.str "Anxiety"]
      (by decide)⟩

/-- C5: every row surviving `clean_data` has, when the respective column
is present in the input, a numeric `Age` within `[0, 100]` and
non-missing `Diagnosis` and `Visit_Date` cells. -/
theorem c5_invariants (t u : Table) (h : clean_data t = some u) :
    ∀ r ∈ u.rows,
      ("Age" ∈ t.cols → ∃ q : Rat, rowVal t.cols r "Age" = Value.num q ∧ 0 ≤ q ∧ q ≤ 100) ∧
      ("Diagnosis" ∈ t.cols → (rowVal t.cols r "Diagnosis").isNA = false) ∧
      ("Visit_Date" ∈ t.cols → (rowVal t.cols r "Visit_Date").isNA = false) := by
  unfold clean_data at h
  split at h
  · injection h with h
    subst h
    intro r hr
    have hp : r ∈ preDedupRows t.cols t.rows := dedupRowsGo_subset t.cols [] _ r hr
    refine ⟨fun hc => ageOK_spec (preDedup_age hc hp),
      fun hc => preDedup_diag hc hp, fun hc => preDedup_vd hc hp⟩
  · cases h

theorem c5_invariants_witness :
    clean_data (Table.mk ["Patient_ID", "Visit_Date", "Diagnosis", "Age"]
        [[Value.num 1, Value.str "2024-01-05", Value.str "Anxiety", Value.str "30"],
         [Value.num 2, Value.str "2024-01-06", Value.str "PTSD", Value.str "150"],
         [Value.num 3, Value.str "2024-01-07", Value.na, Value.str "20"]]) =
      some (Table.mk ["Patient_ID", "Visit_Date", "Diagnosis", "Age"]
        [[Value.num 1, Value.date ⟨2024, 1, 5, 0⟩, Value.str "Anxiety", Value.num 30]]) ∧
    (("Age" ∈ ["Patient_ID", "Visit_Date", "Diagnosis", "Age"] →
        ∃ q : Rat, rowVal ["Patient_ID", "Visit_Date", "Diagnosis", "Age"]
            [Value.num 1, Value.date ⟨2024, 1, 5, 0⟩, Value.str "Anxiety", Value.num 30] "Age" =
          Value.num q ∧ 0 ≤ q ∧ q ≤ 100) ∧
      ("Diagnosis" ∈ ["Patient_ID", "Visit_Date", "Diagnosis", "Age"] →
        (rowVal ["Patient_ID", "Visit_Date", "Diagnosis", "Age"]
            [Value.num 1, Value.date ⟨2024, 1, 5, 0⟩, Value.str "Anxiety", Value.num 30]
          "Diagnosis").isNA = false) ∧
      ("Visit_Date" ∈ ["Patient_ID", "Visit_Date", "Diagnosis", "Age"] →
        (rowVal ["Patient_ID", "Visit_Date", "Diagnosis", "Age"]
            [Value.num 1, Value.date ⟨2024, 1, 5, 0⟩, Value.str "Anxiety", Value.num 30]
          "Visit_Date").isNA = false)) :=
  ⟨by decide,
    c5_invariants
      (Table.mk ["Patient_ID", "Visit_Date", "Diagnosis", "Age"]
        [[Value.num 1, Value.str "2024-01-05", Value.str "Anxiety", Value.str "30"],
         [Value.num 2, Value.str "2024-01-06", Value.str "PTSD", Value.str "150"],
         [Value.num 3, Value.str "2024-01-07", Value.na, Value.str "20"]])
      (Table.mk ["Patient_ID", "Visit_Date", "Diagnosis", "Age"]
        [[Value.num 1, Value.date ⟨2024, 1, 5, 0⟩, Value.str "Anxiety", Value.num 30]])
      (by decide)
      [Value.num 1, Value.date ⟨2024, 1, 5, 0⟩, Value.str "Anxiety", Value.num 30]
      (by decide)⟩

/-- C8: cleaning never increases the row count — whenever `clean_data`
returns a table, it has at most as many rows as the input. -/
theorem c8_length_le (t u : Table) (h : clean_data t = some u) :
    u.rows.length ≤ t.rows.length := by
  unfold clean_data at h
  split at h
  · injection h with h
    subst h
    calc (dedupRows t.cols (preDedupRows t.cols t.rows)).length
        ≤ (preDedupRows t.cols t.rows).length := dedupRowsGo_length t.cols [] _
      _ ≤ t.rows.length := preDedup_length t.cols t.rows
  · cases h

theorem c8_length_le_witness :
    clean_data (Table.mk ["Patient_ID", "Visit_Date"]
        [[Value.num 1, Value.str "2024-01-05"], [Value.num 1, Value.str "2024-01-05"]]) =
      some (Table.mk ["Patient_ID", "Visit_Date"]
        [[Value.num 1, Value.date ⟨2024, 1, 5, 0⟩]]) ∧
    (Table.mk ["Patient_ID", "Visit_Date"]
        [[Value.num 1, Value.date ⟨2024, 1, 5, 0⟩]]).rows.length ≤
      (Table.mk ["Patient_ID", "Visit_Date"]
        [[Value.num 1, Value.str "2024-01-05"], [Value.num 1, Value.str "2024-01-05"]]).rows.length :=
  ⟨by decide,
    c8_length_le
      (Table.mk ["Patient_ID", "Visit_Date"]
        [[Value.num 1, Value.str "2024-01-05"], [Value.num 1, Value.str "2024-01-05"]])
      (Table.mk ["Patient_ID", "Visit_Date"]
        [[Value.num 1, Value.date ⟨2024, 1, 5, 0⟩]])
      (by decide)⟩

theorem readH_writeH_ne (h : Heap) (q p : Nat) (t : Table) (hne : p ≠ q) :
    readH (writeH h q t) p = readH h p := by
  unfold readH writeH
  rw [List.getD_eq_getElem?_getD, List.getD_eq_getElem?_getD,
    List.getElem?_set_ne (Ne.symm hne)]

theorem readH_allocH (h : Heap) (t : Table) (p : Nat) (hp : p < h.length) :
    readH (allocH h t).1 p = readH h p := by
  unfold readH allocH
  rw [List.getD_eq_getElem?_getD, List.getD_eq_getElem?_getD,
    List.getElem?_append_left hp]

theorem pframe_writeH {p : Nat} {h0 h1 : Heap} (hf : PFrame p h0 h1) {q : Nat}
    (hne : p ≠ q) (t : Table) : PFrame p h0 (writeH h1 q t) := by
  refine ⟨?_, ?_⟩
  · simpa [writeH] using hf.1
  · rw [readH_writeH_ne h1 q p t hne]
    exact hf.2

theorem pframe_allocH {p : Nat} {h0 h1 : Heap} (hf : PFrame p h0 h1) (t : Table) :
    PFrame p h0 (allocH h1 t).1 := by
  refine ⟨?_, ?_⟩
  · simp only [allocH, List.length_append, List.length_cons, List.length_nil]
    exact Nat.lt_succ_of_lt hf.1
  · rw [readH_allocH h1 t p hf.1]
    exact hf.2

theorem pframe_condRebind {p : Nat} {h0 h1 : Heap} (hf : PFrame p h0 h1)
    (q : Nat) (f : Table → Table) (c : String) :
    PFrame p h0 (condRebind h1 q f c).1 := by
  unfold condRebind
  split
  · exact pframe_allocH hf _
  · exact hf

theorem hCleanData_fst_frame (h : Heap) (a : HealthAnalyzer) (p : Nat)
    (hp : p < h.length) (hne : p ≠ a.df) :
    readH (hCleanData h a).1 p = readH h p := by
  unfold hCleanData
  dsimp only
  split
  · exact (pframe_allocH (pframe_condRebind (pframe_condRebind (pframe_condRebind
      (pframe_writeH ⟨hp, rfl⟩ hne _) _ _ _) _ _ _) _ _ _) _).2
  · exact (pframe_condRebind (pframe_condRebind (pframe_condRebind
      (pframe_writeH ⟨hp, rfl⟩ hne _) _ _ _) _ _ _) _ _ _).2

/-- C9: constructing a `HealthAnalyzer` on the frame at address `p` and
running `clean_data` leaves the caller's frame unchanged: `__init__`
stores the input as `raw_df` and works on a fresh copy, and every
cleaning write targets the copy or freshly allocated frames. -/
theorem c9_source_unchanged (h : Heap) (p : Nat) (hp : p < h.length) :
    readH (hCleanData (hInit h p).1 (hInit h p).2).1 p = readH h p := by
  have h1 : readH (hInit h p).1 p = readH h p := readH_allocH h _ p hp
  have hlen : p < (hInit h p).1.length := by
    simp only [hInit, allocH, List.length_append, List.length_cons, List.length_nil]
    exact Nat.lt_succ_of_lt hp
  have hne : p ≠ (hInit h p).2.df := by
    simp only [hInit, allocH]
    exact Nat.ne_of_lt hp
  rw [hCleanData_fst_frame (hInit h p).1 (hInit h p).2 p hlen hne, h1]

theorem c9_source_unchanged_witness :
    0 < ([Table.mk ["Patient_ID", "Visit_Date", "Age"]
        [[Value.num 1, Value.str "2024-01-05", Value.str "150"]]] : Heap).length ∧
    readH (hCleanData
        (hInit [Table.mk ["Patient_ID", "Visit_Date", "Age"]
          [[Value.num 1, Value.str "2024-01-05", Value.str "150"]]] 0).1
        (hInit [Table.mk ["Patient_ID", "Visit_Date", "Age"]
          [[Value.num 1, Value.str "2024-01-05", Value.str "150"]]] 0).2).1 0 =
      readH [Table.mk ["Patient_ID", "Visit_Date", "Age"]
        [[Value.num 1, Value.str "2024-01-05", Value.str "150"]]] 0 :=
  ⟨by decide,
    c9_source_unchanged
      [Table.mk ["Patient_ID", "Visit_Date", "Age"]
        [[Value.num 1, Value.str "2024-01-05", Value.str "150"]]] 0 (by decide)⟩

/-- C10: the six getters leave the analyzer's frame — and every other
live frame — unchanged: the five copy-free getters return the heap as
is, and `get_monthly_visits` writes its `Month` column only into the
private copy it allocates, so repeated calls in any order read the same
table and return the same results. -/
theorem c10_getters_frame (h : Heap) (a : HealthAnalyzer) (p : Nat) (hp : p < h.length) :
    (hGetDiagnosisCounts h a).1 = h ∧
    (hGetAgeSeries h a).1 = h ∧
    (hGetGenderCounts h a).1 = h ∧
    (hGetDurationByDiagnosis h a).1 = h ∧
    (hGetSatisfactionSeries h a).1 = h ∧
    readH (hGetMonthlyVisits h a).1 p = readH h p := by
  refine ⟨rfl, rfl, rfl, rfl, rfl, ?_⟩
  unfold hGetMonthlyVisits
  dsimp only
  split
  · split
    · have hf : PFrame p h (allocH h
          ⟨(readH h a.df).cols, (readH h a.df).rows.filter
            (fun r => !(rowVal (readH h a.df).cols r "Visit_Date").isNA)⟩).1 :=
        pframe_allocH ⟨hp, rfl⟩ _
      exact (pframe_writeH hf (Nat.ne_of_lt hp) _).2
    · exact (pframe_allocH (⟨hp, rfl⟩ : PFrame p h h) _).2
  · rfl

theorem c10_getters_frame_witness :
    0 < ([Table.mk ["Visit_Date", "Diagnosis"]
        [[Value.date ⟨2024, 1, 10, 0⟩, Value.str "Anxiety"]]] : Heap).length ∧
    ((hGetDiagnosisCounts [Table.mk ["Visit_Date", "Diagnosis"]
        [[Value.date ⟨2024, 1, 10, 0⟩, Value.str "Anxiety"]]] ⟨0, 0⟩).1 =
      [Table.mk ["Visit_Date", "Diagnosis"]
        [[Value.date ⟨2024, 1, 10, 0⟩, Value.str "Anxiety"]]] ∧
     (hGetAgeSeries [Table.mk ["Visit_Date", "Diagnosis"]
        [[Value.date ⟨2024, 1, 10, 0⟩, Value.str "Anxiety"]]] ⟨0, 0⟩).1 =
      [Table.mk ["Visit_Date", "Diagnosis"]
        [[Value.date ⟨2024, 1, 10, 0⟩, Value.str "Anxiety"]]] ∧
     (hGetGenderCounts [Table.mk ["Visit_Date", "Diagnosis"]
        [[Value.date ⟨2024, 1, 10, 0⟩, Value.str "Anxiety"]]] ⟨0, 0⟩).1 =
      [Table.mk ["Visit_Date", "Diagnosis"]
        [[Value.date ⟨2024, 1, 10, 0⟩, Value.str "Anxiety"]]] ∧
     (hGetDurationByDiagnosis [Table.mk ["Visit_Date", "Diagnosis"]
        [[Value.date ⟨2024, 1, 10, 0⟩, Value.str "Anxiety"]]] ⟨0, 0⟩).1 =
      [Table.mk ["Visit_Date", "Diagnosis"]
        [[Value.date ⟨2024, 1, 10, 0⟩, Value.str "Anxiety"]]] ∧
     (hGetSatisfactionSeries [Table.mk ["Visit_Date", "Diagnosis"]
        [[Value.date ⟨2024, 1, 10, 0⟩, Value.str "Anxiety"]]] ⟨0, 0⟩).1 =
      [Table.mk ["Visit_Date", "Diagnosis"]
        [[Value.date ⟨2024, 1, 10, 0⟩, Value.str "Anxiety"]]] ∧
     readH (hGetMonthlyVisits [Table.mk ["Visit_Date", "Diagnosis"]
        [[Value.date ⟨2024, 1, 10, 0⟩, Value.str "Anxiety"]]] ⟨0, 0⟩).1 0 =
      readH [Table.mk ["Visit_Date", "Diagnosis"]
        [[Value.date ⟨2024, 1, 10, 0⟩, Value.str "Anxiety"]]] 0) :=
  ⟨by decide,
    c10_getters_frame
      [Table.mk ["Visit_Date", "Diagnosis"]
        [[Value.date ⟨2024, 1, 10, 0⟩, Value.str "Anxiety"]]] ⟨0, 0⟩ 0 (by decide)⟩

/-- C7: whenever the `Diagnosis` column is present, `get_diagnosis_counts`
returns a (label, count) list sorted descending by count: for positions
i < j the count at i is at least the count at j. -/
theorem c7_diagnosis_sorted (t : Table) (hc : "Diagnosis" ∈ t.cols) :
    ∃ l, get_diagnosis_counts t = some l ∧
      ∀ (i j : Fin l.length), (i : Nat) < (j : Nat) → (l.get j).2 ≤ (l.get i).2 := by
  unfold get_diagnosis_counts
  rw [if_pos hc]
  refine ⟨_, rfl, ?_⟩
  intro i j hij
  exact List.pairwise_iff_get.mp (List.sorted_insertionSort countDesc _) i j hij

theorem c7_diagnosis_sorted_witness :
    "Diagnosis" ∈ (Table.mk ["Diagnosis"]
        [[Value.str "Anxiety"], [Value.str "PTSD"], [Value.str "Anxiety"]]).cols ∧
    ∃ l, get_diagnosis_counts (Table.mk ["Diagnosis"]
        [[Value.str "Anxiety"], [Value.str "PTSD"], [Value.str "Anxiety"]]) = some l ∧
      ∀ (i j : Fin l.length), (i : Nat) < (j : Nat) → (l.get j).2 ≤ (l.get i).2 :=
  ⟨by decide,
    c7_diagnosis_sorted (Table.mk ["Diagnosis"]
      [[Value.str "Anxiety"], [Value.str "PTSD"], [Value.str "Anxiety"]]) (by decide)⟩

theorem filterMap_toDate_length (vs : List Value) (h : vs.all Value.isDate = true) :
    (vs.filterMap toDate?).length = vs.length := by
  induction vs with
  | nil => rfl
  | cons v vs ih =>
    simp only [List.all_cons, Bool.and_eq_true] at h
    cases v with
    | date d => simp [List.filterMap_cons, toDate?, ih h.2]
    | str s => exact absurd h.1 (by simp [Value.isDate])
    | num q => exact absurd h.1 (by simp [Value.isDate])
    | na => exact absurd h.1 (by simp [Value.isDate])

/-- C6, counterexample: the claim speaks of every table with a
`Visit_Date` column, but on a column that is not datetime-typed (here an
uncoerced string) the `.dt` accessor of source line 69 raises
`AttributeError` (modelled as `none`) instead of returning buckets. -/
theorem c6_counterexample :
    get_monthly_visits ⟨["Visit_Date"], [[Value.str "2024-01-10"]]⟩ = none := by decide

/-- C6 (amended): for every table whose `Visit_Date` column is present
and datetime-typed (every cell a timestamp or missing, as after
cleaning), `get_monthly_visits` returns buckets labelled by the first day
of each timestamp's calendar month (day and intra-day time ignored), in
ascending month order; each bucket count is the number of rows mapping to
that month, every surviving row's month appears as a bucket, and the
counts partition the rows: their sum equals the number of rows with
non-missing `Visit_Date`. -/
theorem c6_monthly_partition (t : Table) (hc : "Visit_Date" ∈ t.cols)
    (hd : ((colValues t "Visit_Date").filter (fun v => !v.isNA)).all Value.isDate = true) :
    ∃ l, get_monthly_visits t = some (some l) ∧
      (l.map Prod.snd).sum = ((colValues t "Visit_Date").filter (fun v => !v.isNA)).length ∧
      l.Pairwise monthAsc ∧
      (∀ p ∈ l, p.2 = (monthList t).count p.1 ∧ p.1 ∈ monthList t) ∧
      (∀ m ∈ monthList t, (m, (monthList t).count m) ∈ l) := by
  unfold get_monthly_visits
  rw [if_pos hc, if_pos hd]
  refine ⟨_, rfl, ?_, ?_, ?_, ?_⟩
  · have hperm := (List.perm_insertionSort monthAsc
      ((monthList t).dedup.map (fun k => (k, (monthList t).count k)))).map Prod.snd
    rw [hperm.sum_eq, List.map_map]
    have h1 : (Prod.snd ∘ fun k => (k, (monthList t).count k)) =
        fun k => (monthList t).count k := rfl
    rw [h1, List.sum_map_count_dedup_eq_length]
    unfold monthList
    rw [List.length_map, filterMap_toDate_length _ hd]
  · exact List.sorted_insertionSort monthAsc _
  · intro p hp
    have hp2 : p ∈ (monthList t).dedup.map (fun k => (k, (monthList t).count k)) :=
      (List.perm_insertionSort monthAsc _).mem_iff.mp hp
    rcases List.mem_map.mp hp2 with ⟨k, hk, he⟩
    subst he
    exact ⟨rfl, List.mem_dedup.mp hk⟩
  · intro m hm
    have hmem : (m, (monthList t).count m) ∈
        (monthList t).dedup.map (fun k => (k, (monthList t).count k)) :=
      List.mem_map.mpr ⟨m, List.mem_dedup.mpr hm, rfl⟩
    exact (List.perm_insertionSort monthAsc _).mem_iff.mpr hmem

theorem c6_monthly_partition_witness :
    "Visit_Date" ∈ (Table.mk ["Visit_Date"]
        [[Value.date ⟨2024, 1, 10, 0⟩], [Value.date ⟨2024, 1, 25, 0⟩]]).cols ∧
    ((colValues (Table.mk ["Visit_Date"]
        [[Value.date ⟨2024, 1, 10, 0⟩], [Value.date ⟨2024, 1, 25, 0⟩]])
      "Visit_Date").filter (fun v => !v.isNA)).all Value.isDate = true ∧
    get_monthly_visits (Table.mk ["Visit_Date"]
        [[Value.date ⟨2024, 1, 10, 0⟩], [Value.date ⟨2024, 1, 25, 0⟩]]) =
      some (some [(⟨2024, 1, 1, 0⟩, 2)]) ∧
    (∃ l, get_monthly_visits (Table.mk ["Visit_Date"]
        [[Value.date ⟨2024, 1, 10, 0⟩], [Value.date ⟨2024, 1, 25, 0⟩]]) = some (some l) ∧
      (l.map Prod.snd).sum = ((colValues (Table.mk ["Visit_Date"]
        [[Value.date ⟨2024, 1, 10, 0⟩], [Value.date ⟨2024, 1, 25, 0⟩]])
        "Visit_Date").filter (fun v => !v.isNA)).length ∧
      l.Pairwise monthAsc ∧
      (∀ p ∈ l, p.2 = (monthList (Table.mk ["Visit_Date"]
        [[Value.date ⟨2024, 1, 10, 0⟩], [Value.date ⟨2024, 1, 25, 0⟩]])).count p.1 ∧
        p.1 ∈ monthList (Table.mk ["Visit_Date"]
          [[Value.date ⟨2024, 1, 10, 0⟩], [Value.date ⟨2024, 1, 25, 0⟩]])) ∧
      (∀ m ∈ monthList (Table.mk ["Visit_Date"]
          [[Value.date ⟨2024, 1, 10, 0⟩], [Value.date ⟨2024, 1, 25, 0⟩]]),
        (m, (monthList (Table.mk ["Visit_Date"]
          [[Value.date ⟨2024, 1, 10, 0⟩], [Value.date ⟨2024, 1, 25, 0⟩]])).count m) ∈ l)) :=
  ⟨by decide, by decide, by decide,
    c6_monthly_partition (Table.mk ["Visit_Date"]
      [[Value.date ⟨2024, 1, 10, 0⟩], [Value.date ⟨2024, 1, 25, 0⟩]]) (by decide) (by decide)⟩

/-- Specification of `meanSkipNA` in standard rational arithmetic: the
mean of the numeric entries (missing entries skipped), or the missing
value when no numeric entry exists. -/
theorem meanSkipNA_spec (vs : List Value) :
    (vs.filterMap toRat? = [] ∧ meanSkipNA vs = Value.na) ∨
    (vs.filterMap toRat? ≠ [] ∧ meanSkipNA vs =
      Value.num ((vs.filterMap toRat?).sum / ((vs.filterMap toRat?).length : Rat))) := by
  cases hq : vs.filterMap toRat? with
  | nil =>
    refine Or.inl ⟨rfl, ?_⟩
    unfold meanSkipNA
    rw [hq]
  | cons q qs =>
    refine Or.inr ⟨by simp, ?_⟩
    unfold meanSkipNA
    rw [hq]
    dsimp only
    rw [qDiv_eq, qSum_eq]

/-- C2, counterexample: diagnosis `Y` has only a missing duration, yet it
appears in the result (with mean `NaN`, sorted last) — pandas
`groupby(...).mean()` keeps all-missing groups as `NaN` rows rather than
excluding them, contradicting the claim's exclusion clause. -/
theorem c2_counterexample :
    get_duration_by_diagnosis ⟨["Diagnosis", "Treatment_Duration_Weeks"],
        [[Value.str "X", Value.num 2], [Value.str "Y", Value.na]]⟩ =
      some [(Value.str "X", Value.num 2), (Value.str "Y", Value.na)] := by decide

/-- C2 (amended): when both `Diagnosis` and `Treatment_Duration_Weeks`
columns are present, `get_duration_by_diagnosis` maps every non-missing
diagnosis label to the arithmetic mean of the non-missing durations of
its rows (`meanSkipNA`; an all-missing group gets the missing value
rather than being excluded), and orders the pairs descending by mean with
missing means placed last. Three records with durations 2, 4, 6 under one
diagnosis yield mean 4 (witness). -/
theorem c2_duration_means (t : Table) (hd : "Diagnosis" ∈ t.cols)
    (hw : "Treatment_Duration_Weeks" ∈ t.cols) :
    ∃ l, get_duration_by_diagnosis t = some l ∧
      (∀ p ∈ l, p.1 ∈ colValues t "Diagnosis" ∧ p.1.isNA = false ∧
        p.2 = meanSkipNA (groupDurations t p.1)) ∧
      (∀ d ∈ colValues t "Diagnosis", d.isNA = false →
        (d, meanSkipNA (groupDurations t d)) ∈ l) ∧
      l.Pairwise meanDesc := by
  unfold get_duration_by_diagnosis
  rw [if_pos ⟨hd, hw⟩]
  refine ⟨_, rfl, ?_, ?_, ?_⟩
  · intro p hp
    have hp2 : p ∈ ((colValues t "Diagnosis").filter (fun v => !v.isNA)).dedup.map
        (fun d => (d, meanSkipNA (groupDurations t d))) :=
      (List.perm_insertionSort meanDesc _).mem_iff.mp hp
    rcases List.mem_map.mp hp2 with ⟨k, hk, he⟩
    subst he
    have hk2 := List.mem_filter.mp (List.mem_dedup.mp hk)
    exact ⟨hk2.1, by simpa using hk2.2, rfl⟩
  · intro d hdm hna
    have hmem : (d, meanSkipNA (groupDurations t d)) ∈
        ((colValues t "Diagnosis").filter (fun v => !v.isNA)).dedup.map
          (fun k => (k, meanSkipNA (groupDurations t k))) :=
      List.mem_map.mpr ⟨d, List.mem_dedup.mpr (List.mem_filter.mpr ⟨hdm, by simp [hna]⟩), rfl⟩
    exact (List.perm_insertionSort meanDesc _).mem_iff.mpr hmem
  · exact List.sorted_insertionSort meanDesc _

theorem c2_duration_means_witness :
    "Diagnosis" ∈ (Table.mk ["Diagnosis", "Treatment_Duration_Weeks"]
        [[Value.str "X", Value.num 2], [Value.str "X", Value.num 4],
         [Value.str "X", Value.num 6]]).cols ∧
    "Treatment_Duration_Weeks" ∈ (Table.mk ["Diagnosis", "Treatment_Duration_Weeks"]
        [[Value.str "X", Value.num 2], [Value.str "X", Value.num 4],
         [Value.str "X", Value.num 6]]).cols ∧
    get_duration_by_diagnosis (Table.mk ["Diagnosis", "Treatment_Duration_Weeks"]
        [[Value.str "X", Value.num 2], [Value.str "X", Value.num 4],
         [Value.str "X", Value.num 6]]) =
      some [(Value.str "X", Value.num 4)] ∧
    (∃ l, get_duration_by_diagnosis (Table.mk ["Diagnosis", "Treatment_Duration_Weeks"]
        [[Value.str "X", Value.num 2], [Value.str "X", Value.num 4],
         [Value.str "X", Value.num 6]]) = some l ∧
      (∀ p ∈ l, p.1 ∈ colValues (Table.mk ["Diagnosis", "Treatment_Duration_Weeks"]
          [[Value.str "X", Value.num 2], [Value.str "X", Value.num 4],
           [Value.str "X", Value.num 6]]) "Diagnosis" ∧ p.1.isNA = false ∧
        p.2 = meanSkipNA (groupDurations (Table.mk ["Diagnosis", "Treatment_Duration_Weeks"]
          [[Value.str "X", Value.num 2], [Value.str "X", Value.num 4],
           [Value.str "X", Value.num 6]]) p.1)) ∧
      (∀ d ∈ colValues (Table.mk ["Diagnosis", "Treatment_Duration_Weeks"]
          [[Value.str "X", Value.num 2], [Value.str "X", Value.num 4],
           [Value.str "X", Value.num 6]]) "Diagnosis", d.isNA = false →
        (d, meanSkipNA (groupDurations (Table.mk ["Diagnosis", "Treatment_Duration_Weeks"]
          [[Value.str "X", Value.num 2], [Value.str "X", Value.num 4],
           [Value.str "X", Value.num 6]]) d)) ∈ l) ∧
      l.Pairwise meanDesc) :=
  ⟨by decide, by decide, by decide,
    c2_duration_means (Table.mk ["Diagnosis", "Treatment_Duration_Weeks"]
      [[Value.str "X", Value.num 2], [Value.str "X", Value.num 4],
       [Value.str "X", Value.num 6]]) (by decide) (by decide)⟩
